import Mathlib

/-
Verification of the webhook ingestion and dispatch pipeline of Git-Auto-Deploy.

The definitions below are a shallow embedding of the Python sources:
  - gitautodeploy/parsers/base.py      (WebhookRequestParserBase)
  - gitautodeploy/parsers/github.py    (GitHubRequestParser)
  - gitautodeploy/parsers/gitlab.py    (GitLabRequestParser)
  - gitautodeploy/parsers/coding.py    (CodingRequestParser)
  - gitautodeploy/parsers/harbor.py    (HarborRequestParser)
  - gitautodeploy/parsers/init file    (get_service_handler)
  - gitautodeploy/httpserver.py        (WebhookRequestHandler.do_POST)
  - gitautodeploy/gitautodeploy.py     (GitAutoDeploy.setup, lock clearing)

Python stdlib primitives that the code calls but does not define (json.loads,
urllib parse_qs, hmac digests) are taken as explicit function parameters of
the embedding; theorems quantify over them.
-/

namespace GAD

/-- JSON values as produced by the Python json.loads. Numbers are modelled as
integers; no claim depends on numeric payload values. -/
inductive Json where
  | null
  | bool (b : Bool)
  | num (n : Int)
  | str (s : String)
  | arr (elems : List Json)
  | obj (fields : List (String × Json))

/-- Python isinstance(v, dict). -/
def Json.isObj : Json → Bool
  | .obj _ => true
  | _ => false

/-- Python isinstance(v, list). -/
def Json.isArr : Json → Bool
  | .arr _ => true
  | _ => false

/-- Elements of a JSON array (empty for non-arrays). -/
def Json.arrElems : Json → List Json
  | .arr xs => xs
  | _ => []

/-- String content of a JSON string value. -/
def Json.asStr : Json → Option String
  | .str s => some s
  | _ => none

/-- Key membership test on a JSON object, Python k in d for a dict d.
The callers below only apply it to values already known to be dicts. -/
def jsonHasKey (j : Json) (k : String) : Bool :=
  match j with
  | .obj fields => fields.any (fun kv => kv.1 == k)
  | _ => false

/-- Lookup on a JSON object, Python d.get(k). -/
def jsonGet (j : Json) (k : String) : Option Json :=
  match j with
  | .obj fields => (fields.find? (fun kv => kv.1 == k)).map (fun kv => kv.2)
  | _ => none

/-- Python exceptions that the modelled code can raise: ValueError is caught
by do_POST and mapped to a 400 response; every other exception class
(KeyError, TypeError, AttributeError) reaches the generic handler. -/
inductive PyErr where
  | valueError
  | uncaught
deriving DecidableEq, Repr

/-- Python v[k] for a payload value v and string key k: succeeds only on a
dict that holds the key; indexing any other JSON value with a string key
raises (KeyError or TypeError). -/
def pyIndex (v : Json) (k : String) : Except PyErr Json :=
  match v with
  | .obj fields =>
    match fields.find? (fun kv => kv.1 == k) with
    | some kv => Except.ok kv.2
    | none => Except.error PyErr.uncaught
  | _ => Except.error PyErr.uncaught

/-- Substring test, Python s.find(pat) != -1. -/
def strContainsSub (s pat : String) : Bool :=
  (List.range (s.toList.length + 1)).any (fun i => pat.toList.isPrefixOf (s.toList.drop i))

/-- Python k in v for a string k and an arbitrary payload value v:
membership for dicts, substring test for strings, element membership for
lists, and a TypeError for every other value. -/
def pyIn (k : String) (v : Json) : Except PyErr Bool :=
  match v with
  | .obj fields => Except.ok (fields.any (fun kv => kv.1 == k))
  | .str s => Except.ok (strContainsSub s k)
  | .arr xs => Except.ok (xs.any (fun x => x.asStr == some k))
  | _ => Except.error PyErr.uncaught

/-- Request headers as a key-value list; do_POST lowercases every key before
any parser sees them, and Python dicts hold each key once, so lookups take
the first entry. -/
abbrev Headers := List (String × String)

/-- Python request_headers.get(k). -/
def headerGet (hs : Headers) (k : String) : Option String :=
  (hs.find? (fun kv => kv.1 == k)).map (fun kv => kv.2)

/-- Python k in request_headers. -/
def headerHas (hs : Headers) (k : String) : Bool :=
  hs.any (fun kv => kv.1 == k)

/-- Python s.lower(), character by character. -/
def strToLower (s : String) : String :=
  String.mk (s.toList.map Char.toLower)

/-- The header-key lowercasing step of do_POST (httpserver.py line 107). -/
def lowerHeaders (hs : Headers) : Headers :=
  hs.map (fun kv => (strToLower kv.1, kv.2))

/-- One configured repository record (cli/config.py). Only the keys consulted
by matching and validation are given their own fields; every remaining key
is kept in rest so that the Python dict equality used for deduplication in
get_matching_repo_configs stays faithful. The field urlWithoutUsername holds
the key url_without_usernme (sic) that config loading derives by stripping
embedded credentials from url. -/
structure RepoConfig where
  url : Option String := none
  matchUrl : Option String := none
  urlWithoutUsername : Option String := none
  secretToken : Option String := none
  path : Option String := none
  rest : List (String × String) := []
deriving DecidableEq, Repr

/-- Python repo_config.get(match-url, repo_config.get(url)): the match-url
key, when configured, replaces url as the compared value. -/
def matchTarget (rc : RepoConfig) : Option String :=
  rc.matchUrl.orElse (fun _ => rc.url)

/-- Translation of WebhookRequestParserBase.get_matching_repo_configs
(base.py lines 11-36): the outer loop runs over the candidate URLs, the
inner loop over the configured repositories; a repository already collected
is skipped, otherwise it is appended when its effective match target or its
credential-stripped alias equals the candidate. -/
def get_matching_repo_configs (urls : List String) (repositories : List RepoConfig) :
    List RepoConfig :=
  urls.foldl
    (fun configs url =>
      repositories.foldl
        (fun configs rc =>
          if rc ∈ configs then configs
          else if matchTarget rc == some url then configs ++ [rc]
          else if rc.urlWithoutUsername == some url then configs ++ [rc]
          else configs)
        configs)
    []

/-- The match condition of one candidate URL against one repository record:
the effective match target (match-url when configured, else url) or the
credential-stripped alias equals the candidate. -/
def matchesUrl (rc : RepoConfig) (u : String) : Bool :=
  matchTarget rc == some u || rc.urlWithoutUsername == some u

/-- First-occurrence deduplication relative to a list of already seen
elements. -/
def firstDedupAux (seen : List RepoConfig) : List RepoConfig → List RepoConfig
  | [] => []
  | x :: xs =>
    if x ∈ seen then firstDedupAux seen xs
    else x :: firstDedupAux (x :: seen) xs

/-- First-occurrence deduplication: keeps the first copy of each element. -/
def firstDedup (l : List RepoConfig) : List RepoConfig :=
  firstDedupAux [] l

/-- Candidate-major matching order: for each candidate URL in order, every
configured repository matching it in configured order, then deduplicated
keeping first occurrences. Stated from the spec wording of the amended C7
to be compared with the source translation. -/
def specMatcherList (urls : List String) (repositories : List RepoConfig) :
    List RepoConfig :=
  firstDedup (urls.flatMap (fun u => repositories.filter (fun rc => matchesUrl rc u)))

/-- Python json.loads applied to a request body, with a parse failure raised
as a ValueError (json.JSONDecodeError is a ValueError subclass). The parse
function itself is the jsonLoads parameter. -/
def pyJsonLoads (jsonLoads : String → Option Json) (body : String) : Except PyErr Json :=
  match jsonLoads body with
  | none => Except.error PyErr.valueError
  | some v => Except.ok v

/-- Translation of WebhookRequestParserBase.validate_request (base.py lines
38-40): validated exactly when no matched repository declares a
secret-token; the headers and body are ignored. -/
def base_validate_request (_request_headers : Headers) (_request_body : String)
    (repo_configs : List RepoConfig) : Bool :=
  !(repo_configs.any (fun rc => rc.secretToken.isSome))

/-- Shared URL-extraction loop of the GitHub, GitLab and Coding parsers: for
each key in order, when the repository object holds the key, append its
value. Non-string payload values can never equal a configured URL string
(configs are required to define url, cf. clone_all_repos), so the collected
values are narrowed to strings before matching. -/
def extractRepoUrls (repo : Json) (keys : List String) :
    Except PyErr (List String) := do
  let vals ← keys.foldlM
    (fun acc k => do
      let h ← pyIn k repo
      if h then do
        let v ← pyIndex repo k
        return acc ++ [v]
      else
        return acc)
    ([] : List Json)
  return vals.filterMap Json.asStr

/-- Translation of GitHubRequestParser.get_matching_projects (github.py
lines 13-38): parse the body, return empty when the payload has no
repository object, otherwise collect the url, git_url, clone_url and
ssh_url fields and delegate to the shared matcher. -/
def github_get_matching_projects (jsonLoads : String → Option Json)
    (repositories : List RepoConfig) (_request_headers : Headers)
    (request_body : String) : Except PyErr (List RepoConfig) := do
  let data ← pyJsonLoads jsonLoads request_body
  let hasRepo ← pyIn "repository" data
  if !hasRepo then
    return []
  else do
    let repo ← pyIndex data "repository"
    let repo_urls ← extractRepoUrls repo ["url", "git_url", "clone_url", "ssh_url"]
    return get_matching_repo_configs repo_urls repositories

/-- Translation of GitLabRequestParser.get_matching_projects (gitlab.py
lines 10-35); identical to the GitHub variant except for the field list
url, git_http_url, git_ssh_url. -/
def gitlab_get_matching_projects (jsonLoads : String → Option Json)
    (repositories : List RepoConfig) (_request_headers : Headers)
    (request_body : String) : Except PyErr (List RepoConfig) := do
  let data ← pyJsonLoads jsonLoads request_body
  let hasRepo ← pyIn "repository" data
  if !hasRepo then
    return []
  else do
    let repo ← pyIndex data "repository"
    let repo_urls ← extractRepoUrls repo ["url", "git_http_url", "git_ssh_url"]
    return get_matching_repo_configs repo_urls repositories

/-- Translation of CodingRequestParser.verify_token (coding.py lines 51-53):
Python equality between the configured token string and the token payload
value, false whenever the payload value is not the equal string. -/
def coding_verify_token (secret_token : String) (request_token : Json) : Bool :=
  request_token.asStr == some secret_token

/-- Translation of the per-repository token filter inside
CodingRequestParser.get_matching_projects (coding.py lines 35-47): a
repository with a secret-token is kept only when the payload holds a token
field that verifies against it. -/
def coding_token_filter (data : Json) (items : List RepoConfig) : List RepoConfig :=
  items.filter
    (fun rc =>
      match rc.secretToken with
      | none => true
      | some t =>
        jsonHasKey data "token" &&
          ((jsonGet data "token").map (coding_verify_token t)).getD false)

/-- Translation of CodingRequestParser.get_matching_projects (coding.py
lines 11-49): match on the web_url, https_url and ssh_url fields, then drop
every matched repository whose secret-token is not confirmed by the token
body field. -/
def coding_get_matching_projects (jsonLoads : String → Option Json)
    (repositories : List RepoConfig) (_request_headers : Headers)
    (request_body : String) : Except PyErr (List RepoConfig) := do
  let data ← pyJsonLoads jsonLoads request_body
  let hasRepo ← pyIn "repository" data
  if !hasRepo then
    return []
  else do
    let repo ← pyIndex data "repository"
    let repo_urls ← extractRepoUrls repo ["web_url", "https_url", "ssh_url"]
    let items := get_matching_repo_configs repo_urls repositories
    return coding_token_filter data items

/-- Translation of GitHubRequestParser.verify_signature_256 (github.py lines
74-88): hmac.compare_digest between the header and the sha256= prefixed hex
digest; compare_digest on two strings decides exactly string equality (in
constant time, a timing property outside this embedding). The digest
function itself is the sig256 parameter, applied to the token and the raw
body. -/
def verify_signature_256 (sig256 : String → String → String) (secret_token : String)
    (payload_body : String) (signature_header : String) : Bool :=
  ("sha256=" ++ sig256 secret_token payload_body) == signature_header

/-- Translation of GitHubRequestParser.verify_signature_sha1 (github.py
lines 90-95): plain string equality against the sha1= prefixed hex digest. -/
def verify_signature_sha1 (sig1 : String → String → String) (token : String)
    (body : String) (signature : String) : Bool :=
  ("sha1=" ++ sig1 token body) == signature

/-- Translation of GitHubRequestParser.validate_request (github.py lines
40-72): for each matched repository that declares a secret-token, check the
x-hub-signature-256 header when present, otherwise fall back to
x-hub-signature, and fail the whole batch when both are absent or a check
fails. -/
def github_validate_request (sig256 sig1 : String → String → String)
    (request_headers : Headers) (request_body : String) :
    List RepoConfig → Bool
  | [] => true
  | rc :: rest =>
    match rc.secretToken with
    | none => github_validate_request sig256 sig1 request_headers request_body rest
    | some token =>
      match headerGet request_headers "x-hub-signature-256" with
      | none =>
        match headerGet request_headers "x-hub-signature" with
        | none => false
        | some sig1header =>
          if verify_signature_sha1 sig1 token request_body sig1header then
            github_validate_request sig256 sig1 request_headers request_body rest
          else false
      | some sig256header =>
        if verify_signature_256 sig256 token request_body sig256header then
          github_validate_request sig256 sig1 request_headers request_body rest
        else false

/-- Translation of GitLabRequestParser.validate_request (gitlab.py lines
37-51): a repository fails the batch only when it declares a secret-token,
the x-gitlab-token header is present, and the two differ; when the header
is absent the loop body is skipped entirely. -/
def gitlab_validate_request (request_headers : Headers) (_request_body : String) :
    List RepoConfig → Bool
  | [] => true
  | rc :: rest =>
    if rc.secretToken.isSome && headerHas request_headers "x-gitlab-token" then
      if rc.secretToken == headerGet request_headers "x-gitlab-token" then
        gitlab_validate_request request_headers _request_body rest
      else false
    else gitlab_validate_request request_headers _request_body rest

/-- Translation of HarborRequestParser.validate_request (harbor.py lines
53-65): each repository with a secret-token requires the Authorization
header (capitalised, although do_POST lowercases all header keys) to equal
it exactly. -/
def harbor_validate_request (request_headers : Headers) (_request_body : String) :
    List RepoConfig → Bool
  | [] => true
  | rc :: rest =>
    match rc.secretToken with
    | none => harbor_validate_request request_headers _request_body rest
    | some expected =>
      match headerGet request_headers "Authorization" with
      | none => false
      | some auth =>
        if auth == expected then harbor_validate_request request_headers _request_body rest
        else false

/-- The EVENT_KEYS constant of harbor.py. -/
def harborEventKeys : List String := ["type", "occur_at", "operator", "event_data"]

/-- The RESOURCE_KEYS constant of harbor.py. -/
def harborResourceKeys : List String := ["digest", "tag", "resource_url"]

/-- The REPOSITORY_KEYS constant of harbor.py. -/
def harborRepositoryKeys : List String :=
  ["date_created", "name", "namespace", "repo_full_name", "repo_type"]

/-- Translation of is_valid_webhook_request (harbor.py lines 13-30). The
third conjunct of the source iterates over a parenthesised STRING, not a
tuple of two strings: all(key in data[event_data] for key in
("resources, repository")) runs key over the individual characters of the
21-character string, so it demands one-character keys such as r, e and the
comma in event_data. The translation reproduces that behaviour. -/
def is_valid_webhook_request (data : Json) : Except PyErr Bool := do
  if !data.isObj then
    return false
  else if !(harborEventKeys.all (fun k => jsonHasKey data k)) then
    return false
  else do
    let event_data ← pyIndex data "event_data"
    let charKeysOk ← ("resources, repository".toList).allM
      (fun c => pyIn (String.mk [c]) event_data)
    if !charKeysOk then
      return false
    else do
      let resources ← pyIndex event_data "resources"
      if !resources.isArr then
        return false
      else do
        let repository ← pyIndex event_data "repository"
        if !repository.isObj then
          return false
        else if !(decide (0 < resources.arrElems.length)) then
          return false
        else do
          let resOk ← harborResourceKeys.allM
            (fun k => resources.arrElems.allM (fun r => pyIn k r))
          if !resOk then
            return false
          else
            return harborRepositoryKeys.all (fun k => jsonHasKey repository k)

/-- Python s.split(sep)[0] for a one-character separator: the prefix of s
before the first occurrence of sep, or all of s when sep does not occur. -/
def splitFirst (s : String) (sep : Char) : String :=
  String.mk (s.toList.takeWhile (fun c => !(c == sep)))

/-- Translation of HarborRequestParser.get_matching_projects (harbor.py
lines 36-51): reject payloads failing is_valid_webhook_request, log the
event_type field (a lookup that raises KeyError when the key is absent,
since the payload contract names the key type, not event_type), then match
on the first resource_url truncated at the first commercial-at sign. -/
def harbor_get_matching_projects (jsonLoads : String → Option Json)
    (repositories : List RepoConfig) (_request_headers : Headers)
    (request_body : String) : Except PyErr (List RepoConfig) := do
  let data ← pyJsonLoads jsonLoads request_body
  let valid ← is_valid_webhook_request data
  if !valid then
    return []
  else do
    let _eventType ← pyIndex data "event_type"
    let event_data ← pyIndex data "event_data"
    let resources ← pyIndex event_data "resources"
    let firstResource := resources.arrElems.headD Json.null
    let resourceUrl ← pyIndex firstResource "resource_url"
    match resourceUrl.asStr with
    | none => Except.error PyErr.uncaught
    | some s =>
      let match_url := splitFirst s (Char.ofNat 64)  -- code point 64 is the commercial at
      return get_matching_repo_configs [match_url] repositories

/-- Modelled from the spec: bitbucket.py is not under src/. Spec section 4.2
gives BitBucket the common parser contract (candidate URLs drawn from the
repository object, empty on a missing repository object) without naming its
field list, and section 4.2 assigns BitBucket the base-class validation;
the extraction is modelled with the url field. -/
def bitbucket_get_matching_projects (jsonLoads : String → Option Json)
    (repositories : List RepoConfig) (_request_headers : Headers)
    (request_body : String) : Except PyErr (List RepoConfig) := do
  let data ← pyJsonLoads jsonLoads request_body
  let hasRepo ← pyIn "repository" data
  if !hasRepo then
    return []
  else do
    let repo ← pyIndex data "repository"
    let repo_urls ← extractRepoUrls repo ["url"]
    return get_matching_repo_configs repo_urls repositories

/-- Modelled from the spec: generic.py is not under src/. Spec section 4.1
rule 6 describes the Generic parser as covering GitHub-like JSON bodies, so
the extraction is modelled with the GitHub field list, and spec section 4.2
assigns it the base-class validation. -/
def generic_get_matching_projects (jsonLoads : String → Option Json)
    (repositories : List RepoConfig) (request_headers : Headers)
    (request_body : String) : Except PyErr (List RepoConfig) :=
  github_get_matching_projects jsonLoads repositories request_headers request_body

/-- Modelled from the spec: gitlabci.py is not under src/. Spec section 4.1
rule 2 describes GitLab-CI as the same origin as GitLab with a different
payload shape, so it is modelled with the GitLab URL extraction. -/
def gitlabci_get_matching_projects (jsonLoads : String → Option Json)
    (repositories : List RepoConfig) (request_headers : Headers)
    (request_body : String) : Except PyErr (List RepoConfig) :=
  gitlab_get_matching_projects jsonLoads repositories request_headers request_body

/-- The provider services the classifier can select. -/
inductive Service where
  | coding
  | gitlab
  | gitlabci
  | github
  | bitbucket
  | harbor
  | generic
deriving DecidableEq, Repr

/-- The user-agent clause of the classifier: the header is present, truthy
(non-empty) and contains the substring bitbucket case-insensitively. -/
def uaContainsBitbucket (hs : Headers) : Bool :=
  match headerGet hs "user-agent" with
  | some ua => !(ua == "") && strContainsSub (strToLower ua) "bitbucket"
  | none => false

/-- The Harbor clause of the classifier: the payload holds a type key whose
value is the string PUSH_ARTIFACT. -/
def typeIsPushArtifact (payload : Json) : Bool :=
  jsonHasKey payload "type" &&
    (((jsonGet payload "type").map (fun v => v.asStr == some "PUSH_ARTIFACT")).getD false)

/-- Translation of get_service_handler (parsers package init file, lines
14-66): parse the body (a failure propagates as ValueError), raise
ValueError when the top-level value is not an object, then run the marker
tests in source order; the result none models the Python None returned when
no rule matches. -/
def get_service_handler (jsonLoads : String → Option Json)
    (request_headers : Headers) (request_body : String) :
    Except PyErr (Option Service) :=
  match pyJsonLoads jsonLoads request_body with
  | Except.error e => Except.error e
  | Except.ok payload =>
    if !payload.isObj then Except.error PyErr.valueError
    else
      let content_type := headerGet request_headers "content-type"
      Except.ok
        (if headerHas request_headers "x-coding-event" then some Service.coding
        else if headerHas request_headers "x-gitlab-event" then
          if content_type == some "application/json" && jsonHasKey payload "build_status" then
            some Service.gitlabci
          else some Service.gitlab
        else if headerHas request_headers "x-github-event" then some Service.github
        else if uaContainsBitbucket request_headers then some Service.bitbucket
        else if typeIsPushArtifact payload then some Service.harbor
        else if content_type == some "application/json" then some Service.generic
        else none)

/-- The capability set of one provider parser as consumed by do_POST. -/
structure ServiceHandler where
  getMatchingProjects : Headers → String → Except PyErr (List RepoConfig)
  validateRequest : Headers → String → List RepoConfig → Bool

/-- Dispatch from the classified service to its parser functions, closing
over the configured repository list and the stdlib digest functions exactly
as the parser instances close over the config object. -/
def toHandler (jsonLoads : String → Option Json) (sig256 sig1 : String → String → String)
    (repositories : List RepoConfig) : Service → ServiceHandler
  | Service.coding =>
    ⟨coding_get_matching_projects jsonLoads repositories, base_validate_request⟩
  | Service.gitlab =>
    ⟨gitlab_get_matching_projects jsonLoads repositories,
      fun hs body cfgs => gitlab_validate_request hs body cfgs⟩
  | Service.gitlabci =>
    ⟨gitlabci_get_matching_projects jsonLoads repositories,
      fun hs body cfgs => gitlab_validate_request hs body cfgs⟩
  | Service.github =>
    ⟨github_get_matching_projects jsonLoads repositories,
      fun hs body cfgs => github_validate_request sig256 sig1 hs body cfgs⟩
  | Service.bitbucket =>
    ⟨bitbucket_get_matching_projects jsonLoads repositories, base_validate_request⟩
  | Service.harbor =>
    ⟨harbor_get_matching_projects jsonLoads repositories,
      fun hs body cfgs => harbor_validate_request hs body cfgs⟩
  | Service.generic =>
    ⟨generic_get_matching_projects jsonLoads repositories, base_validate_request⟩

/-- Outcome of one do_POST invocation: an HTTP status with the list of
projects whose deploy threads were spawned, or a crash when an exception
escapes the handler before any response is sent. -/
inductive POSTResult where
  | response (status : Nat) (executed : List RepoConfig)
  | crash
deriving DecidableEq, Repr

/-- The form-payload extraction step of do_POST (httpserver.py lines
117-122): under the form-urlencoded content type, when the parsed form data
holds exactly one payload field, that field replaces the request body. -/
def extractBody (parseQs : String → List (String × List String)) (content_type : String)
    (request_body : String) : String :=
  if content_type == "application/x-www-form-urlencoded" then
    match (parseQs request_body).find? (fun kv => kv.1 == "payload") with
    | some (_, [p]) => p
    | _ => request_body
  else request_body

/-- Translation of WebhookRequestHandler.do_POST after the form-payload
extraction (httpserver.py lines 124-245). The test-case debug code at line
127 parses request_body OUTSIDE the try block, so a parse failure there
escapes the handler (crash). Classification, matching and filtering all
read request_body; validate_request alone reads request_body_bytes. A
ValueError answers 400, any other exception answers 500, an unrecognized
service or an empty match list answers 400, a failed validation answers
400, and otherwise 200 is sent with one deploy thread per project that
survived the filters. -/
def doPOSTBody (jsonLoads : String → Option Json) (sig256 sig1 : String → String → String)
    (applyFilters : RepoConfig → Headers → String → Bool)
    (repositories : List RepoConfig) (request_headers : Headers)
    (request_body request_body_bytes : String) : POSTResult :=
  match jsonLoads request_body with
  | none => POSTResult.crash
  | some _ =>
    match get_service_handler jsonLoads request_headers request_body with
    | Except.error PyErr.valueError => POSTResult.response 400 []
    | Except.error PyErr.uncaught => POSTResult.response 500 []
    | Except.ok none => POSTResult.response 400 []
    | Except.ok (some svc) =>
      let handler := toHandler jsonLoads sig256 sig1 repositories svc
      match handler.getMatchingProjects request_headers request_body with
      | Except.error PyErr.valueError => POSTResult.response 400 []
      | Except.error PyErr.uncaught => POSTResult.response 500 []
      | Except.ok projects =>
        if projects.length == 0 then POSTResult.response 400 []
        else
          let projects := projects.filter
            (fun p => applyFilters p request_headers request_body)
          if !(handler.validateRequest request_headers request_body_bytes projects) then
            POSTResult.response 400 []
          else if projects.length == 0 then POSTResult.response 200 []
          else POSTResult.response 200 projects

/-- Translation of WebhookRequestHandler.do_POST (httpserver.py lines
98-245): decode the body (bytes and their utf-8 decoding are identified),
lowercase the header keys, read the content-type header with a plain dict
index (a KeyError escaping the handler when the header is absent), run the
form-payload extraction and continue with doPOSTBody. -/
def doPOST (jsonLoads : String → Option Json)
    (parseQs : String → List (String × List String))
    (sig256 sig1 : String → String → String)
    (applyFilters : RepoConfig → Headers → String → Bool)
    (repositories : List RepoConfig) (headers : Headers)
    (request_body_bytes : String) : POSTResult :=
  let request_headers := lowerHeaders headers
  match headerGet request_headers "content-type" with
  | none => POSTResult.crash
  | some content_type =>
    doPOSTBody jsonLoads sig256 sig1 applyFilters repositories request_headers
      (extractBody parseQs content_type request_body_bytes) request_body_bytes

/-- Modelled from the spec: lock.py is not under src/. Spec section 3
describes the Repository Lock as boolean flags persisted as filesystem
markers, cleared unconditionally by Lock(path).clear() regardless of prior
state; the filesystem is modelled as a predicate giving each marker path
its present flag, and clear removes the marker at its path. -/
def lockClear (fs : String → Bool) (path : String) : String → Bool :=
  fun p => if p == path then false else fs p

/-- Python os.path.join for one relative component. -/
def pathJoin (dir file : String) : String := dir ++ "/" ++ file

/-- Translation of the lock-clearing loop of GitAutoDeploy.setup
(gitautodeploy.py lines 322-328): for every configured repository with a
path, clear the status_running and status_waiting markers under that path
with no regard to possible ongoing processes. -/
def setup_clear_locks (repositories : List RepoConfig) (fs : String → Bool) :
    String → Bool :=
  repositories.foldl
    (fun fs rc =>
      match rc.path with
      | some p => lockClear (lockClear fs (pathJoin p "status_running")) (pathJoin p "status_waiting")
      | none => fs)
    fs

/-! Concrete evaluation inputs. Each jsonLoads parameter below instantiates
the abstract Python json.loads with a finite table mapping the bodies used
in the evaluation to their parsed payloads. -/

/-- A Coding push payload whose token body field is the string abc. -/
def codingPayload : Json :=
  Json.obj
    [("token", Json.str "abc"),
     ("repository", Json.obj [("web_url", Json.str "https://coding.net/x/y")])]

/-- Parse table for the Coding evaluation. -/
def codingJsonLoads : String → Option Json := fun s =>
  if s == "codingbody" then some codingPayload else none

/-- A configured Coding repository with the secret-token abc. -/
def codingConfig : RepoConfig :=
  { url := some "https://coding.net/x/y", secretToken := some "abc" }

/-- C2: for a Coding request whose every matched project has a secret-token
exactly equal to the token body field, the claim says batch validation
succeeds and the request is accepted. The code contradicts this: the Coding
parser checks the token inside get_matching_projects and keeps the project,
but CodingRequestParser inherits validate_request from the base class,
which rejects any batch containing a project with a secret-token, so
do_POST answers 400 and schedules nothing. -/
theorem c2_coding_token_match_rejected :
    coding_get_matching_projects codingJsonLoads [codingConfig]
        [("content-type", "application/json"), ("x-coding-event", "push")] "codingbody"
      = Except.ok [codingConfig]
    ∧ base_validate_request
        [("content-type", "application/json"), ("x-coding-event", "push")] "codingbody"
        [codingConfig] = false
    ∧ doPOST codingJsonLoads (fun _ => []) (fun _ _ => "") (fun _ _ => "")
        (fun _ _ _ => true) [codingConfig]
        [("content-type", "application/json"), ("x-coding-event", "push")] "codingbody"
      = POSTResult.response 400 [] :=
  ⟨rfl, rfl, rfl⟩

/-- A GitLab push payload for the missing-token-header evaluation. -/
def gitlabPayload : Json :=
  Json.obj [("repository", Json.obj [("url", Json.str "https://gitlab.example/x/y.git")])]

/-- Parse table for the GitLab evaluation. -/
def gitlabJsonLoads : String → Option Json := fun s =>
  if s == "gitlabbody" then some gitlabPayload else none

/-- A configured GitLab repository with the secret-token abc. -/
def gitlabConfig : RepoConfig :=
  { url := some "https://gitlab.example/x/y.git", secretToken := some "abc" }

/-- C3: the claim (and spec section 4.2) says a GitLab request for a project
with a configured secret-token is invalid when the x-gitlab-token header is
absent. The code contradicts this: the loop guard in
GitLabRequestParser.validate_request requires the header to be present
before comparing, so a request without the header skips the check and the
batch validates; do_POST accepts with 200 and schedules the deploy. Every
sibling parser (GitHub, Coding, Harbor) fails closed on a missing
credential, which marks the fail-open guard as a slip. -/
theorem c3_gitlab_missing_header_accepted :
    gitlab_validate_request
        [("content-type", "application/json"), ("x-gitlab-event", "Push Hook")] "gitlabbody"
        [gitlabConfig] = true
    ∧ doPOST gitlabJsonLoads (fun _ => []) (fun _ _ => "") (fun _ _ => "")
        (fun _ _ _ => true) [gitlabConfig]
        [("content-type", "application/json"), ("x-gitlab-event", "Push Hook")] "gitlabbody"
      = POSTResult.response 200 [gitlabConfig] :=
  ⟨rfl, rfl⟩

/-- Parse table for the malformed-payload evaluation: the string nonobject
parses to the JSON number 5, every other body fails to parse. -/
def malformedJsonLoads : String → Option Json := fun s =>
  if s == "nonobject" then some (Json.num 5) else none

/-- C5: the claim says a body that is not parseable JSON is rejected with
400 before classification. The code contradicts this for the unparseable
half: do_POST builds its test-case debug data with json.loads(request_body)
at httpserver.py line 127, OUTSIDE the try block that maps ValueError to
400, so the exception escapes the handler and no response is sent (crash).
The non-object half behaves as claimed: the parse at line 127 succeeds and
get_service_handler raises ValueError inside the try, answering 400 before
any classification rule runs and with no project contacted. -/
theorem c5_malformed_json_uncaught :
    doPOST malformedJsonLoads (fun _ => []) (fun _ _ => "") (fun _ _ => "")
        (fun _ _ _ => true) [] [("content-type", "application/json")] "garbage"
      = POSTResult.crash
    ∧ doPOST malformedJsonLoads (fun _ => []) (fun _ _ => "") (fun _ _ => "")
        (fun _ _ _ => true) [] [("content-type", "application/json")] "nonobject"
      = POSTResult.response 400 [] :=
  ⟨rfl, rfl⟩

/-- A Harbor PUSH_ARTIFACT payload that is well-formed per the documented
Harbor webhook shape: all event keys, one resource with digest, tag and
resource_url, and a repository object with all five documented keys. -/
def harborPayload : Json :=
  Json.obj
    [("type", Json.str "PUSH_ARTIFACT"),
     ("occur_at", Json.num 1586922308),
     ("operator", Json.str "admin"),
     ("event_data", Json.obj
       [("resources", Json.arr
         [Json.obj
           [("digest", Json.str "sha256:2822"),
            ("tag", Json.str "latest"),
            ("resource_url", Json.str "harbor.example/library/app@sha256:2822")]]),
        ("repository", Json.obj
          [("date_created", Json.num 1586922308),
           ("name", Json.str "app"),
           ("namespace", Json.str "library"),
           ("repo_full_name", Json.str "library/app"),
           ("repo_type", Json.str "private")])])]

/-- Parse table for the Harbor evaluation. -/
def harborJsonLoads : String → Option Json := fun s =>
  if s == "harborbody" then some harborPayload else none

/-- A configured repository whose url equals the first resource_url of the
Harbor payload truncated at the commercial at, as the claim prescribes. -/
def harborConfig : RepoConfig := { url := some "harbor.example/library/app" }

/-- C8: the claim says a well-formed Harbor payload yields the first
resource_url truncated at the commercial at as the single candidate, so a
matching configured project is returned. The code contradicts its own
documented payload contract: the validity check iterates over the
CHARACTERS of the parenthesised string resources-comma-space-repository
instead of a two-string tuple, demanding one-character keys in event_data,
so every well-formed payload is ruled invalid, the parser returns the empty
list (third conjunct shows the truncated URL would have matched), and
do_POST answers 400. The log line would additionally raise KeyError on the
absent event_type key had validation passed. -/
theorem c8_harbor_valid_payload_rejected :
    is_valid_webhook_request harborPayload = Except.ok false
    ∧ harbor_get_matching_projects harborJsonLoads [harborConfig]
        [("content-type", "application/json")] "harborbody" = Except.ok []
    ∧ get_matching_repo_configs
        [splitFirst "harbor.example/library/app@sha256:2822" (Char.ofNat 64)]
        [harborConfig] = [harborConfig]
    ∧ doPOST harborJsonLoads (fun _ => []) (fun _ _ => "") (fun _ _ => "")
        (fun _ _ _ => true) [harborConfig] [("content-type", "application/json")]
        "harborbody" = POSTResult.response 400 [] :=
  ⟨rfl, rfl, rfl, rfl⟩

/-- Lock clearing only removes markers: a marker absent before the setup
loop stays absent after it. -/
theorem setup_clear_locks_preserves_false (repositories : List RepoConfig)
    (fs : String → Bool) (q : String) (h : fs q = false) :
    setup_clear_locks repositories fs q = false := by
  induction repositories generalizing fs with
  | nil => simpa [setup_clear_locks] using h
  | cons head rest ih =>
    rw [setup_clear_locks, List.foldl_cons]
    apply ih
    match hp : head.path with
    | none => simpa [hp] using h
    | some p =>
      simp only [hp, lockClear]
      split
      · rfl
      · split
        · rfl
        · exact h

/-- One pass of the clearing step removes both markers of its own path. -/
theorem lockClear_pair_clears (fs : String → Bool) (p : String) :
    lockClear (lockClear fs (pathJoin p "status_running")) (pathJoin p "status_waiting")
        (pathJoin p "status_running") = false
    ∧ lockClear (lockClear fs (pathJoin p "status_running")) (pathJoin p "status_waiting")
        (pathJoin p "status_waiting") = false := by
  constructor
  · simp only [lockClear]
    split
    · rfl
    · simp
  · simp [lockClear]

/-- C9: at process startup, for every configured repository that has a
path, setup clears both filesystem lock markers status_running and
status_waiting under that path unconditionally, regardless of their prior
state, so a stale lock left by a crashed previous process never blocks a
later deploy attempt. -/
theorem c9_startup_clears_locks (repositories : List RepoConfig)
    (fs : String → Bool) (rc : RepoConfig) (p : String)
    (hmem : rc ∈ repositories) (hpath : rc.path = some p) :
    setup_clear_locks repositories fs (pathJoin p "status_running") = false
    ∧ setup_clear_locks repositories fs (pathJoin p "status_waiting") = false := by
  induction repositories generalizing fs with
  | nil => cases hmem
  | cons head rest ih =>
    rw [setup_clear_locks, List.foldl_cons, ← setup_clear_locks]
    rcases List.mem_cons.mp hmem with heq | hrest
    · subst heq
      rw [hpath]
      exact ⟨setup_clear_locks_preserves_false rest _ _ (lockClear_pair_clears fs p).1,
        setup_clear_locks_preserves_false rest _ _ (lockClear_pair_clears fs p).2⟩
    · exact ih _ hrest

/-- Witness for C9 at a concrete configuration: one repository at the path
/srv/app with both markers initially present. -/
theorem c9_witness :
    setup_clear_locks [{ path := some "/srv/app" }] (fun _ => true)
        (pathJoin "/srv/app" "status_running") = false
    ∧ setup_clear_locks [{ path := some "/srv/app" }] (fun _ => true)
        (pathJoin "/srv/app" "status_waiting") = false :=
  c9_startup_clears_locks [{ path := some "/srv/app" }] (fun _ => true)
    { path := some "/srv/app" } "/srv/app" (by simp) rfl

/-- With the sha256 header present, a batch that validates forces the
header to equal the expected sha256 signature of every repository with a
secret-token; the sha1 header is never consulted. -/
theorem github_validate_sig256_only_if (sig256 sig1 : String → String → String)
    (hs : Headers) (body : String) (s : String)
    (h256 : headerGet hs "x-hub-signature-256" = some s) :
    ∀ configs, github_validate_request sig256 sig1 hs body configs = true →
      ∀ rc ∈ configs, ∀ t, rc.secretToken = some t → s = "sha256=" ++ sig256 t body := by
  intro configs
  induction configs with
  | nil =>
    intro _ rc hrc
    cases hrc
  | cons head rest ih =>
    intro hv rc hrc t ht
    rcases List.mem_cons.mp hrc with heq | hrest
    · subst heq
      simp only [github_validate_request, ht, h256] at hv
      cases hver : verify_signature_256 sig256 t body s with
      | false => rw [hver] at hv; simp at hv
      | true =>
        have : (("sha256=" ++ sig256 t body) == s) = true := hver
        exact (eq_of_beq this).symm
    · cases hsec : head.secretToken with
      | none =>
        simp only [github_validate_request, hsec] at hv
        exact ih hv rc hrest t ht
      | some tk =>
        simp only [github_validate_request, hsec, h256] at hv
        cases hver : verify_signature_256 sig256 tk body s with
        | false => rw [hver] at hv; simp at hv
        | true =>
          rw [hver] at hv
          simp only [if_pos] at hv
          exact ih hv rc hrest t ht

/-- With the sha256 header absent and the sha1 header present, a batch that
validates forces the sha1 header to equal the expected sha1 signature of
every repository with a secret-token. -/
theorem github_validate_sig1_only_if (sig256 sig1 : String → String → String)
    (hs : Headers) (body : String) (s : String)
    (h256 : headerGet hs "x-hub-signature-256" = none)
    (h1 : headerGet hs "x-hub-signature" = some s) :
    ∀ configs, github_validate_request sig256 sig1 hs body configs = true →
      ∀ rc ∈ configs, ∀ t, rc.secretToken = some t → s = "sha1=" ++ sig1 t body := by
  intro configs
  induction configs with
  | nil =>
    intro _ rc hrc
    cases hrc
  | cons head rest ih =>
    intro hv rc hrc t ht
    rcases List.mem_cons.mp hrc with heq | hrest
    · subst heq
      simp only [github_validate_request, ht, h256, h1] at hv
      cases hver : verify_signature_sha1 sig1 t body s with
      | false => rw [hver] at hv; simp at hv
      | true =>
        have : (("sha1=" ++ sig1 t body) == s) = true := hver
        exact (eq_of_beq this).symm
    · cases hsec : head.secretToken with
      | none =>
        simp only [github_validate_request, hsec] at hv
        exact ih hv rc hrest t ht
      | some tk =>
        simp only [github_validate_request, hsec, h256, h1] at hv
        cases hver : verify_signature_sha1 sig1 tk body s with
        | false => rw [hver] at hv; simp at hv
        | true =>
          rw [hver] at hv
          simp only [if_pos] at hv
          exact ih hv rc hrest t ht

/-- With both signature headers absent, any batch containing a repository
with a secret-token fails validation. -/
theorem github_validate_no_header_false (sig256 sig1 : String → String → String)
    (hs : Headers) (body : String)
    (h256 : headerGet hs "x-hub-signature-256" = none)
    (h1 : headerGet hs "x-hub-signature" = none) :
    ∀ configs, (∃ rc ∈ configs, rc.secretToken.isSome) →
      github_validate_request sig256 sig1 hs body configs = false := by
  intro configs
  induction configs with
  | nil =>
    rintro ⟨rc, hrc, _⟩
    cases hrc
  | cons head rest ih =>
    rintro ⟨rc, hrc, hsome⟩
    rcases List.mem_cons.mp hrc with heq | hrest
    · subst heq
      cases hsec : rc.secretToken with
      | none => rw [hsec] at hsome; cases hsome
      | some tk => simp [github_validate_request, hsec, h256, h1]
    · cases hsec : head.secretToken with
      | none =>
        simp only [github_validate_request, hsec]
        exact ih ⟨rc, hrest, hsome⟩
      | some tk => simp [github_validate_request, hsec, h256, h1]

/-- C1: for a GitHub-classified request and a matched batch with configured
secret-tokens, acceptance with the x-hub-signature-256 header present
requires that header to equal sha256= followed by the hex HMAC-SHA256 of
the raw body keyed by each secret-token, with the x-hub-signature header
never consulted; with only x-hub-signature present, acceptance requires it
to equal sha1= plus the hex HMAC-SHA1; with neither header present and at
least one matched repository declaring a secret-token, validate_request
returns false. The digest functions are the sig256 and sig1 parameters and
the equality of compare_digest is its functional content (its constant-time
execution is a timing property outside this embedding). -/
theorem c1_github_signature_validation (sig256 sig1 : String → String → String)
    (hs : Headers) (body : String) (configs : List RepoConfig) :
    (∀ s, headerGet hs "x-hub-signature-256" = some s →
      github_validate_request sig256 sig1 hs body configs = true →
      ∀ rc ∈ configs, ∀ t, rc.secretToken = some t → s = "sha256=" ++ sig256 t body)
    ∧ (headerGet hs "x-hub-signature-256" = none →
      ∀ s, headerGet hs "x-hub-signature" = some s →
      github_validate_request sig256 sig1 hs body configs = true →
      ∀ rc ∈ configs, ∀ t, rc.secretToken = some t → s = "sha1=" ++ sig1 t body)
    ∧ (headerGet hs "x-hub-signature-256" = none →
      headerGet hs "x-hub-signature" = none →
      (∃ rc ∈ configs, rc.secretToken.isSome) →
      github_validate_request sig256 sig1 hs body configs = false) :=
  ⟨fun s h256 hv => github_validate_sig256_only_if sig256 sig1 hs body s h256 configs hv,
   fun h256 s h1 hv => github_validate_sig1_only_if sig256 sig1 hs body s h256 h1 configs hv,
   fun h256 h1 hex => github_validate_no_header_false sig256 sig1 hs body h256 h1 configs hex⟩

/-- Witness for C1 at a concrete input: one repository with the token tok,
a sha256 header matching the digest of the raw body, and the only-if
conclusion instantiated there. -/
theorem c1_witness :
    "sha256=tokbody" = "sha256=" ++ (fun t b => t ++ b) "tok" "body" :=
  (c1_github_signature_validation (fun t b => t ++ b) (fun t b => t ++ b)
      [("x-hub-signature-256", "sha256=tokbody")] "body"
      [{ secretToken := some "tok" }]).1
    "sha256=tokbody" rfl rfl { secretToken := some "tok" } (by simp) "tok" rfl

/-- Deduplication depends on the seen list only through membership. -/
theorem firstDedupAux_congr (seen₁ seen₂ : List RepoConfig)
    (h : ∀ x, x ∈ seen₁ ↔ x ∈ seen₂) :
    ∀ l, firstDedupAux seen₁ l = firstDedupAux seen₂ l := by
  intro l
  induction l generalizing seen₁ seen₂ with
  | nil => rfl
  | cons x xs ih =>
    simp only [firstDedupAux]
    by_cases hx : x ∈ seen₁
    · rw [if_pos hx, if_pos ((h x).mp hx)]
      exact ih seen₁ seen₂ h
    · rw [if_neg hx, if_neg (fun hc => hx ((h x).mpr hc))]
      refine congrArg (x :: ·) (ih _ _ ?_)
      intro y
      simp only [List.mem_cons]
      exact or_congr Iff.rfl (h y)

/-- Membership in the deduplicated list. -/
theorem mem_firstDedupAux (seen : List RepoConfig) (l : List RepoConfig) (x : RepoConfig) :
    x ∈ firstDedupAux seen l ↔ x ∈ l ∧ x ∉ seen := by
  induction l generalizing seen with
  | nil => simp [firstDedupAux]
  | cons y ys ih =>
    simp only [firstDedupAux]
    by_cases hy : y ∈ seen
    · rw [if_pos hy, ih]
      simp only [List.mem_cons]
      constructor
      · rintro ⟨hmem, hns⟩
        exact ⟨Or.inr hmem, hns⟩
      · rintro ⟨hmem | hmem, hns⟩
        · subst hmem; exact absurd hy hns
        · exact ⟨hmem, hns⟩
    · rw [if_neg hy]
      by_cases hxy : x = y
      · subst hxy
        simp [ih, hy]
      · simp [List.mem_cons, ih, hxy]

/-- The deduplicated list is duplicate-free. -/
theorem nodup_firstDedupAux (seen : List RepoConfig) (l : List RepoConfig) :
    (firstDedupAux seen l).Nodup := by
  induction l generalizing seen with
  | nil => exact List.nodup_nil
  | cons y ys ih =>
    simp only [firstDedupAux]
    by_cases hy : y ∈ seen
    · rw [if_pos hy]; exact ih seen
    · rw [if_neg hy]
      refine List.nodup_cons.mpr ⟨?_, ih (y :: seen)⟩
      rw [mem_firstDedupAux]
      rintro ⟨_, hns⟩
      exact hns (List.mem_cons_self y seen)

/-- Splitting the deduplication of a concatenation. -/
theorem firstDedupAux_append (seen : List RepoConfig) (a b : List RepoConfig) :
    firstDedupAux seen (a ++ b)
      = firstDedupAux seen a ++ firstDedupAux (firstDedupAux seen a ++ seen) b := by
  induction a generalizing seen with
  | nil => simp [firstDedupAux]
  | cons x xs ih =>
    have hcons : (x :: xs) ++ b = x :: (xs ++ b) := rfl
    rw [hcons]
    simp only [firstDedupAux]
    by_cases hx : x ∈ seen
    · simp only [if_pos hx]
      exact ih seen
    · simp only [if_neg hx]
      rw [ih (x :: seen)]
      have hconsapp : (x :: firstDedupAux (x :: seen) xs) ++
          firstDedupAux ((x :: firstDedupAux (x :: seen) xs) ++ seen) b
          = x :: (firstDedupAux (x :: seen) xs ++
              firstDedupAux ((x :: firstDedupAux (x :: seen) xs) ++ seen) b) := rfl
      rw [hconsapp]
      refine congrArg (x :: ·) (congrArg _ ?_)
      apply firstDedupAux_congr
      intro y
      simp only [List.mem_append, List.mem_cons]
      tauto

/-- The inner repository loop of the matcher, run from an accumulator,
appends the first-occurrence deduplication of the repositories matching
the candidate. -/
theorem matcher_inner_loop (url : String) (repositories : List RepoConfig)
    (acc : List RepoConfig) :
    repositories.foldl
        (fun configs rc =>
          if rc ∈ configs then configs
          else if matchTarget rc == some url then configs ++ [rc]
          else if rc.urlWithoutUsername == some url then configs ++ [rc]
          else configs)
        acc
      = acc ++ firstDedupAux acc (repositories.filter (fun rc => matchesUrl rc url)) := by
  induction repositories generalizing acc with
  | nil => simp [firstDedupAux]
  | cons rc rest ih =>
    simp only [List.foldl_cons]
    by_cases hmatch : matchesUrl rc url = true
    · have hfilter : (rc :: rest).filter (fun rc => matchesUrl rc url)
          = rc :: rest.filter (fun rc => matchesUrl rc url) := by
        simp [List.filter_cons, hmatch]
      rw [hfilter]
      by_cases hmem : rc ∈ acc
      · have hstep : (if rc ∈ acc then acc
            else if matchTarget rc == some url then acc ++ [rc]
            else if rc.urlWithoutUsername == some url then acc ++ [rc]
            else acc) = acc := by rw [if_pos hmem]
        rw [hstep, ih acc]
        simp only [firstDedupAux, if_pos hmem]
      · have hstep : (if rc ∈ acc then acc
            else if matchTarget rc == some url then acc ++ [rc]
            else if rc.urlWithoutUsername == some url then acc ++ [rc]
            else acc) = acc ++ [rc] := by
          rw [if_neg hmem]
          have hor : (matchTarget rc == some url) = true
              ∨ (rc.urlWithoutUsername == some url) = true := by
            have : (matchTarget rc == some url || rc.urlWithoutUsername == some url)
                = true := hmatch
            exact Bool.or_eq_true_iff.mp this
          rcases hor with h | h
          · rw [if_pos h]
          · by_cases h2 : (matchTarget rc == some url) = true
            · rw [if_pos h2]
            · rw [if_neg h2, if_pos h]
        rw [hstep, ih (acc ++ [rc])]
        simp only [firstDedupAux, if_neg hmem, List.append_assoc, List.singleton_append]
        refine congrArg (acc ++ rc :: ·) ?_
        apply firstDedupAux_congr
        intro y
        simp only [List.mem_append, List.mem_cons, List.mem_singleton]
        tauto
    · have hfilter : (rc :: rest).filter (fun rc => matchesUrl rc url)
          = rest.filter (fun rc => matchesUrl rc url) := by
        simp [List.filter_cons, hmatch]
      have hfalse : matchesUrl rc url = false := by
        cases h : matchesUrl rc url
        · rfl
        · exact absurd h hmatch
      have hand : (matchTarget rc == some url) = false
          ∧ (rc.urlWithoutUsername == some url) = false := by
        have : (matchTarget rc == some url || rc.urlWithoutUsername == some url)
            = false := hfalse
        exact Bool.or_eq_false_iff.mp this
      have h1 := hand.1
      have h2 := hand.2
      have hstep : (if rc ∈ acc then acc
          else if matchTarget rc == some url then acc ++ [rc]
          else if rc.urlWithoutUsername == some url then acc ++ [rc]
          else acc) = acc := by
        by_cases hmem : rc ∈ acc
        · rw [if_pos hmem]
        · rw [if_neg hmem, if_neg (by simp [h1]), if_neg (by simp [h2])]
      rw [hstep, hfilter, ih acc]

/-- The outer candidate loop of the matcher, run from an accumulator,
appends the first-occurrence deduplication of the candidate-major match
list. -/
theorem matcher_outer_loop (urls : List String) (repositories : List RepoConfig)
    (acc : List RepoConfig) :
    urls.foldl
        (fun configs url =>
          repositories.foldl
            (fun configs rc =>
              if rc ∈ configs then configs
              else if matchTarget rc == some url then configs ++ [rc]
              else if rc.urlWithoutUsername == some url then configs ++ [rc]
              else configs)
            configs)
        acc
      = acc ++ firstDedupAux acc
          (urls.flatMap (fun u => repositories.filter (fun rc => matchesUrl rc u))) := by
  induction urls generalizing acc with
  | nil => simp [firstDedupAux]
  | cons u us ih =>
    simp only [List.foldl_cons, List.flatMap_cons]
    rw [matcher_inner_loop u repositories acc, ih, firstDedupAux_append, List.append_assoc]
    refine congrArg (acc ++ ·) (congrArg _ ?_)
    apply firstDedupAux_congr
    intro y
    simp only [List.mem_append]
    tauto

/-- C7 (amended): the matcher returns exactly the configured repositories
whose effective match target (match-url when configured, else url) or
credential-stripped alias is exactly string-equal to some candidate URL,
with no normalization, each repository appearing at most once even when
several candidates hit it; the order is candidate-major (ordered by the
first candidate that matches each repository, ties broken by configured
order), not the configured-list order the original claim stated. -/
theorem c7_matcher_characterization (urls : List String) (repositories : List RepoConfig) :
    get_matching_repo_configs urls repositories = specMatcherList urls repositories
    ∧ (∀ rc, rc ∈ get_matching_repo_configs urls repositories ↔
        rc ∈ repositories ∧ ∃ u ∈ urls, matchesUrl rc u = true)
    ∧ (get_matching_repo_configs urls repositories).Nodup := by
  have hmain : get_matching_repo_configs urls repositories
      = specMatcherList urls repositories := by
    rw [get_matching_repo_configs, specMatcherList, firstDedup,
      matcher_outer_loop urls repositories []]
    simp
  refine ⟨hmain, fun rc => ?_, ?_⟩
  · rw [hmain, specMatcherList, firstDedup, mem_firstDedupAux]
    simp only [List.mem_flatMap, List.mem_filter, List.not_mem_nil, not_false_iff,
      and_true]
    tauto
  · rw [hmain, specMatcherList, firstDedup]
    exact nodup_firstDedupAux [] _

/-- Counterexample to C7 as stated. First conjunct: with candidates u1, u2
and the configured list holding first a repository for u2 and then one for
u1, the matcher returns them in candidate order, the reverse of the
configured order the claim requires. Third conjunct: a repository whose
match-url is configured is not returned even though its url equals the
candidate, against the claim that URL equality suffices. -/
theorem c7_counterexample :
    get_matching_repo_configs ["u1", "u2"]
        [{ url := some "u2" }, { url := some "u1" }]
      = [{ url := some "u1" }, { url := some "u2" }]
    ∧ get_matching_repo_configs ["u1", "u2"]
        [{ url := some "u2" }, { url := some "u1" }]
      ≠ [{ url := some "u2" }, { url := some "u1" }]
    ∧ get_matching_repo_configs ["v"] [{ url := some "v", matchUrl := some "m" }] = [] := by
  refine ⟨rfl, ?_, rfl⟩
  decide

/-- The classifier rule table of the amended C6: pairs of a test over the
headers and the parsed payload with the selected service, evaluated
first-match-wins. Rule 2 of the claim is split into its two outcomes: the
GitLab-CI line fires only when the content-type header is exactly
application/json AND the payload holds a build_status key, and the GitLab
line catches every remaining GitLab-marked request. -/
def classifierRules : List ((Headers → Json → Bool) × Service) :=
  [(fun hs _ => headerHas hs "x-coding-event", Service.coding),
   (fun hs p => headerHas hs "x-gitlab-event"
      && (headerGet hs "content-type" == some "application/json")
      && jsonHasKey p "build_status", Service.gitlabci),
   (fun hs _ => headerHas hs "x-gitlab-event", Service.gitlab),
   (fun hs _ => headerHas hs "x-github-event", Service.github),
   (fun hs _ => uaContainsBitbucket hs, Service.bitbucket),
   (fun _ p => typeIsPushArtifact p, Service.harbor),
   (fun hs _ => headerGet hs "content-type" == some "application/json", Service.generic)]

/-- First-match evaluation of the classifier rule table. -/
def classifyByRules (hs : Headers) (p : Json) : Option Service :=
  (classifierRules.find? (fun r => r.1 hs p)).map (fun r => r.2)

/-- C6 (amended): for every headers-and-body pair accepted for
classification (the body parses to a JSON object), get_service_handler
evaluates its rules in fixed priority order, Coding marker header; GitLab
marker header returning GitLab-CI instead when the content-type header is
exactly application/json and the payload contains a build_status field (the
original claim conditioned the exception on the body alone); GitHub marker
header; user-agent containing bitbucket case-insensitively; payload type
field equal to PUSH_ARTIFACT for Harbor; JSON content-type for Generic;
otherwise no handler, and the first matching rule determines the result. -/
theorem c6_classifier_first_match (jsonLoads : String → Option Json)
    (hs : Headers) (body : String) (payload : Json)
    (hparse : jsonLoads body = some payload) (hobj : payload.isObj = true) :
    get_service_handler jsonLoads hs body = Except.ok (classifyByRules hs payload) := by
  have hpj : pyJsonLoads jsonLoads body = Except.ok payload := by
    rw [pyJsonLoads, hparse]
  rw [get_service_handler, hpj]
  simp only [hobj, Bool.not_true, Bool.false_eq_true, if_false]
  refine congrArg Except.ok ?_
  rw [classifyByRules, classifierRules]
  cases h1 : headerHas hs "x-coding-event" with
  | true => simp [List.find?, h1]
  | false =>
    cases h2 : headerHas hs "x-gitlab-event" with
    | true =>
      cases hsub : (headerGet hs "content-type" == some "application/json"
          && jsonHasKey payload "build_status") with
      | true =>
        have := hsub
        simp only [Bool.and_eq_true] at this
        simp [List.find?, h1, h2, this.1, this.2]
      | false =>
        rcases Bool.and_eq_false_iff.mp hsub with h | h <;>
          simp [List.find?, h1, h2, h]
    | false =>
      cases h3 : headerHas hs "x-github-event" with
      | true => simp [List.find?, h1, h2, h3]
      | false =>
        cases h4 : uaContainsBitbucket hs with
        | true => simp [List.find?, h1, h2, h3, h4]
        | false =>
          cases h5 : typeIsPushArtifact payload with
          | true => simp [List.find?, h1, h2, h3, h4, h5]
          | false =>
            cases h6 : (headerGet hs "content-type" == some "application/json") with
            | true => simp [List.find?, h1, h2, h3, h4, h5, h6]
            | false => simp [List.find?, h1, h2, h3, h4, h5, h6]

/-- A GitLab-CI status payload: a JSON object holding a build_status
field. -/
def ciPayload : Json :=
  Json.obj
    [("build_status", Json.str "success"),
     ("repository", Json.obj [("url", Json.str "https://gitlab.example/x/y.git")])]

/-- Parse table for the GitLab-CI classification evaluation. -/
def ciJsonLoads : String → Option Json := fun s =>
  if s == "cibody" then some ciPayload else none

/-- Counterexample to C6 as stated: a request carrying the GitLab marker
header whose body is JSON and contains a build_status field, but whose
content-type header is absent. The claim requires GitLab-CI; the code
additionally requires the content-type header to equal application/json
exactly, so it returns GitLab. -/
theorem c6_counterexample :
    jsonHasKey ciPayload "build_status" = true
    ∧ get_service_handler ciJsonLoads [("x-gitlab-event", "Pipeline Hook")] "cibody"
        = Except.ok (some Service.gitlab)
    ∧ some Service.gitlab ≠ some Service.gitlabci :=
  ⟨rfl, rfl, by decide⟩

/-- Witness for C6 at a concrete input: the same GitLab-CI payload with the
content-type header present, classified through the rule table. -/
theorem c6_witness :
    get_service_handler ciJsonLoads
        [("x-gitlab-event", "Pipeline Hook"), ("content-type", "application/json")] "cibody"
      = Except.ok (classifyByRules
          [("x-gitlab-event", "Pipeline Hook"), ("content-type", "application/json")]
          ciPayload) :=
  c6_classifier_first_match ciJsonLoads
    [("x-gitlab-event", "Pipeline Hook"), ("content-type", "application/json")]
    "cibody" ciPayload rfl rfl

/-- A successful classification implies the body parsed. -/
theorem get_service_handler_ok_parse (jsonLoads : String → Option Json)
    (hs : Headers) (body : String) (x : Option Service)
    (h : get_service_handler jsonLoads hs body = Except.ok x) :
    ∃ p, jsonLoads body = some p := by
  cases hp : jsonLoads body with
  | none =>
    rw [get_service_handler, pyJsonLoads, hp] at h
    cases h
  | some p => exact ⟨p, rfl⟩

/-- Every provider validator accepts an empty project batch: the loops of
the GitHub, GitLab and Harbor validators fall through immediately, and the
base-class default holds vacuously. -/
theorem validateRequest_nil (jsonLoads : String → Option Json)
    (sig256 sig1 : String → String → String) (repositories : List RepoConfig)
    (svc : Service) (hs : Headers) (body : String) :
    (toHandler jsonLoads sig256 sig1 repositories svc).validateRequest hs body [] = true := by
  cases svc <;> rfl

/-- C4 (amended): when classification and matching produce at least one
project but the filters reject every one of them, do_POST still passes
validation (every validator accepts the now-empty batch), sends 200 and
schedules no execution; this differs from the zero-matched-projects case,
which is answered 400 before the filters run, so the two outcomes are NOT
identical at the HTTP level as the original claim stated. -/
theorem c4_filtered_out_response (jsonLoads : String → Option Json)
    (parseQs : String → List (String × List String))
    (sig256 sig1 : String → String → String)
    (applyFilters : RepoConfig → Headers → String → Bool)
    (repositories : List RepoConfig) (headers : Headers) (body : String)
    (ct : String) (svc : Service) (ps : List RepoConfig)
    (hct : headerGet (lowerHeaders headers) "content-type" = some ct)
    (hclass : get_service_handler jsonLoads (lowerHeaders headers)
        (extractBody parseQs ct body) = Except.ok (some svc))
    (hmatch : (toHandler jsonLoads sig256 sig1 repositories svc).getMatchingProjects
        (lowerHeaders headers) (extractBody parseQs ct body) = Except.ok ps)
    (hne : ps ≠ [])
    (hfilt : ∀ p ∈ ps,
        applyFilters p (lowerHeaders headers) (extractBody parseQs ct body) = false) :
    doPOST jsonLoads parseQs sig256 sig1 applyFilters repositories headers body
      = POSTResult.response 200 [] := by
  obtain ⟨p, hp⟩ := get_service_handler_ok_parse jsonLoads (lowerHeaders headers)
    (extractBody parseQs ct body) (some svc) hclass
  have hlen : (ps.length == 0) = false := by
    cases ps with
    | nil => exact absurd rfl hne
    | cons a rest => rfl
  have hfe : ps.filter
      (fun q => applyFilters q (lowerHeaders headers) (extractBody parseQs ct body))
      = [] := by
    rw [List.filter_eq_nil_iff]
    intro a ha
    simp [hfilt a ha]
  rw [doPOST, hct]
  dsimp only
  rw [doPOSTBody.eq_def, hp]
  dsimp only
  rw [hclass]
  dsimp only
  rw [hmatch]
  dsimp only
  rw [hlen]
  simp only [Bool.false_eq_true, if_false, hfe, validateRequest_nil, Bool.not_true,
    List.length_nil]
  rfl

/-- A GitHub push payload for the filter evaluations. -/
def ghPayload : Json :=
  Json.obj [("repository", Json.obj [("url", Json.str "https://github.com/x/y")])]

/-- Parse table for the GitHub filter evaluations. -/
def ghJsonLoads : String → Option Json := fun s =>
  if s == "ghbody" then some ghPayload else none

/-- A configured GitHub repository without a secret-token. -/
def ghConfig : RepoConfig := { url := some "https://github.com/x/y" }

/-- Counterexample to C4 as stated: the same GitHub request processed once
against a configured project whose filters reject it (first conjunct, the
code answers 200 with nothing scheduled) and once with zero matched
projects (second conjunct, the code answers 400); the two responses
differ, against the claim that the filtered-out case is answered 400
identically to the zero-match case. -/
theorem c4_counterexample :
    doPOST ghJsonLoads (fun _ => []) (fun _ _ => "") (fun _ _ => "")
        (fun _ _ _ => false) [ghConfig]
        [("content-type", "application/json"), ("x-github-event", "push")] "ghbody"
      = POSTResult.response 200 []
    ∧ doPOST ghJsonLoads (fun _ => []) (fun _ _ => "") (fun _ _ => "")
        (fun _ _ _ => true) []
        [("content-type", "application/json"), ("x-github-event", "push")] "ghbody"
      = POSTResult.response 400 []
    ∧ POSTResult.response 200 [] ≠ POSTResult.response 400 [] :=
  ⟨rfl, rfl, by decide⟩

/-- Witness for C4 at a concrete input: one matched GitHub project whose
filters reject it, processed through the amended theorem. -/
theorem c4_witness :
    doPOST ghJsonLoads (fun _ => []) (fun _ _ => "") (fun _ _ => "")
        (fun _ _ _ => false) [ghConfig]
        [("content-type", "application/json"), ("x-github-event", "push")] "ghbody"
      = POSTResult.response 200 [] :=
  c4_filtered_out_response ghJsonLoads (fun _ => []) (fun _ _ => "") (fun _ _ => "")
    (fun _ _ _ => false) [ghConfig]
    [("content-type", "application/json"), ("x-github-event", "push")] "ghbody"
    "application/json" Service.github [ghConfig] rfl rfl rfl (by decide)
    (fun q _ => rfl)

/-- C10: for a POST whose content-type is application/x-www-form-urlencoded
and whose form data holds exactly one payload field, do_POST continues with
the extracted payload as the request body for classification, matching and
filtering, while validate_request always receives the original raw request
body bytes. First conjunct: processing equals doPOSTBody applied to the
extracted payload as body and the raw bytes as the validation input.
Second conjunct: a GitHub-classified such request accepted with the sha256
header present forces that header to equal the signature of the RAW body,
not of the extracted payload, for every executed project with a
secret-token. -/
theorem c10_form_payload_extraction (jsonLoads : String → Option Json)
    (parseQs : String → List (String × List String))
    (sig256 sig1 : String → String → String)
    (applyFilters : RepoConfig → Headers → String → Bool)
    (repositories : List RepoConfig) (headers : Headers) (body p : String)
    (hct : headerGet (lowerHeaders headers) "content-type"
        = some "application/x-www-form-urlencoded")
    (hpay : (parseQs body).find? (fun kv => kv.1 == "payload") = some ("payload", [p])) :
    doPOST jsonLoads parseQs sig256 sig1 applyFilters repositories headers body
      = doPOSTBody jsonLoads sig256 sig1 applyFilters repositories (lowerHeaders headers)
          p body
    ∧ (∀ s es, headerGet (lowerHeaders headers) "x-hub-signature-256" = some s →
        get_service_handler jsonLoads (lowerHeaders headers) p
          = Except.ok (some Service.github) →
        doPOST jsonLoads parseQs sig256 sig1 applyFilters repositories headers body
          = POSTResult.response 200 es →
        ∀ rc ∈ es, ∀ t, rc.secretToken = some t → s = "sha256=" ++ sig256 t body) := by
  have hext : extractBody parseQs "application/x-www-form-urlencoded" body = p := by
    rw [extractBody]
    simp [hpay]
  have hmain : doPOST jsonLoads parseQs sig256 sig1 applyFilters repositories headers body
      = doPOSTBody jsonLoads sig256 sig1 applyFilters repositories (lowerHeaders headers)
          p body := by
    rw [doPOST, hct]
    dsimp only
    rw [hext]
  refine ⟨hmain, ?_⟩
  intro s es hs256 hgh h200
  rw [hmain, doPOSTBody.eq_def] at h200
  cases hp2 : jsonLoads p with
  | none =>
    rw [hp2] at h200
    cases h200
  | some pj =>
    rw [hp2] at h200
    dsimp only at h200
    rw [hgh] at h200
    dsimp only [toHandler] at h200
    cases hm : github_get_matching_projects jsonLoads repositories (lowerHeaders headers) p with
    | error e =>
      rw [hm] at h200
      cases e with
      | valueError =>
        dsimp only at h200
        injection h200 with h1 h2
        exact absurd h1 (by decide)
      | uncaught =>
        dsimp only at h200
        injection h200 with h1 h2
        exact absurd h1 (by decide)
    | ok ps0 =>
      rw [hm] at h200
      dsimp only at h200
      cases hl : (ps0.length == 0) with
      | true =>
        simp only [hl, if_true] at h200
        injection h200 with h1 h2
        exact absurd h1 (by decide)
      | false =>
        simp only [hl, Bool.false_eq_true, if_false] at h200
        cases hv : github_validate_request sig256 sig1 (lowerHeaders headers) body
            (ps0.filter (fun q => applyFilters q (lowerHeaders headers) p)) with
        | false =>
          simp only [hv, Bool.not_false, if_true] at h200
          injection h200 with h1 h2
          exact absurd h1 (by decide)
        | true =>
          simp only [hv, Bool.not_true, Bool.false_eq_true, if_false] at h200
          cases hfl : ((ps0.filter
              (fun q => applyFilters q (lowerHeaders headers) p)).length == 0) with
          | true =>
            simp only [hfl, if_true] at h200
            injection h200 with h1 h2
            subst h2
            intro rc hrc
            cases hrc
          | false =>
            simp only [hfl, Bool.false_eq_true, if_false] at h200
            injection h200 with h1 h2
            subst h2
            exact github_validate_sig256_only_if sig256 sig1 (lowerHeaders headers)
              body s hs256 _ hv

/-- Parse table for the form-encoded GitHub evaluation: the raw form body
maps to no JSON, the extracted payload maps to the push payload. -/
def formJsonLoads : String → Option Json := fun s =>
  if s == "ghbody" then some ghPayload else none

/-- Form decoding table for the form-encoded GitHub evaluation: the raw
body decodes to a single payload field holding the extracted JSON text. -/
def formParseQs : String → List (String × List String) := fun s =>
  if s == "rawformbody" then [("payload", ["ghbody"])] else []

/-- A configured GitHub repository with the secret-token tok. -/
def ghSecretConfig : RepoConfig :=
  { url := some "https://github.com/x/y", secretToken := some "tok" }

/-- Witness for C10 at a concrete input: a form-encoded GitHub request
whose sha256 header is the signature of the raw form body, accepted with
one executed project; the conclusion equates the header with the signature
of the raw body. -/
theorem c10_witness :
    "sha256=tokrawformbody" = "sha256=" ++ (fun t b => t ++ b) "tok" "rawformbody" :=
  (c10_form_payload_extraction formJsonLoads formParseQs
      (fun t b => t ++ b) (fun t b => t ++ b) (fun _ _ _ => true) [ghSecretConfig]
      [("content-type", "application/x-www-form-urlencoded"),
       ("x-github-event", "push"),
       ("x-hub-signature-256", "sha256=tokrawformbody")]
      "rawformbody" "ghbody" rfl rfl).2
    "sha256=tokrawformbody" [ghSecretConfig] rfl rfl rfl ghSecretConfig (by simp) "tok" rfl

end GAD
